import Mathlib

/-!
Verification development for the Chronos forecasting adapter
(`sktime/forecasting/chronos.py`).

The adapter wraps a pretrained Chronos pipeline: it merges a caller
configuration over documented defaults, lazily loads the pipeline on first
fit, and at predict time reshapes the stored (or caller-supplied) series
into per-group rows, truncates each group's history to the pipeline's
context length, queries the pipeline for sampled future trajectories,
reduces them to per-step medians, and reassembles a table indexed by the
caller's scheme restricted to the requested horizon.

The embedding below models pandas frames by explicit index/value lists,
numpy arrays by rectangular lists of lists (rationals in place of floats),
the opaque Chronos pipeline by a function-valued structure, and the global
`transformers` random state by an explicitly threaded integer.
-/

/-- A configuration value of the adapter's config dict: the Python values
`None`, ints, floats, bools, strings (device maps, dtypes). -/
inductive CVal where
  | vnone
  | vint (i : Int)
  | vrat (q : Rat)
  | vbool (b : Bool)
  | vstr (s : String)
  deriving DecidableEq

/-- Key of the `num_samples` config entry. -/
def kNumSamples : String := "num_samples"

/-- Key of the `temperature` config entry. -/
def kTemperature : String := "temperature"

/-- Key of the `top_k` config entry. -/
def kTopK : String := "top_k"

/-- Key of the `top_p` config entry. -/
def kTopP : String := "top_p"

/-- Key of the `limit_prediction_length` config entry. -/
def kLimitPredictionLength : String := "limit_prediction_length"

/-- Key of the `torch_dtype` config entry. -/
def kTorchDtype : String := "torch_dtype"

/-- Key of the `device_map` config entry. -/
def kDeviceMap : String := "device_map"

/-- The value `torch.bfloat16` (an opaque dtype object, modelled by name). -/
def vBfloat16 : CVal := CVal.vstr "torch.bfloat16"

/-- The default device placement string. -/
def vCpu : CVal := CVal.vstr "cpu"

/-- `ChronosForecaster._default_config` (chronos.py lines 76-84). -/
def defaultConfig : List (String × CVal) :=
  [(kNumSamples, CVal.vnone),
   (kTemperature, CVal.vnone),
   (kTopK, CVal.vnone),
   (kTopP, CVal.vnone),
   (kLimitPredictionLength, CVal.vbool false),
   (kTorchDtype, vBfloat16),
   (kDeviceMap, vCpu)]

/-- Python dict lookup (first binding wins; a well-formed dict has unique
keys). -/
def dictLookup (k : String) : List (String × CVal) → Option CVal
  | [] => none
  | (k2, v) :: rest => if k2 = k then some v else dictLookup k rest

/-- Dict lookup with `None` as the missing-key result (all documented keys
are present in the merged config, so the default never shows through in the
adapter itself). -/
def lookupD (k : String) (d : List (String × CVal)) : CVal :=
  (dictLookup k d).getD CVal.vnone

/-- Set one key of a Python dict: overwrite the (unique) existing binding
in place if present, else append at the end (Python dicts preserve
insertion order). -/
def dictSet : List (String × CVal) → String → CVal → List (String × CVal)
  | [], k, v => [(k, v)]
  | (k1, v1) :: rest, k, v =>
      if k1 = k then (k, v) :: rest else (k1, v1) :: dictSet rest k v

/-- Python `base.update(upd)`: fold the updates into the base dict. -/
def dictUpdate (base upd : List (String × CVal)) : List (String × CVal) :=
  upd.foldl (fun acc kv => dictSet acc kv.1 kv.2) base

/-- One panel group: entity key, per-group time index, per-group values
(univariate, one value column). -/
structure PanelGroup where
  key : Int
  times : List Int
  values : List Rat
  deriving DecidableEq

/-- The inner `y` data: a flat single series (`pd.DataFrame` with a plain
index) or a panel (`pd-multiindex`, rows grouped by entity key). -/
inductive YData where
  | flat (times : List Int) (values : List Rat)
  | panel (groups : List PanelGroup)
  deriving DecidableEq

/-- Arguments of one `self.model_pipeline.predict(...)` call
(chronos.py lines 172-180). -/
structure PipeCall where
  history : List Rat
  predLen : Int
  numSamples : CVal
  temperature : CVal
  topK : CVal
  topP : CVal
  limitPredictionLength : Bool
  deriving DecidableEq

/-- Default `PipeCall`, used only as a `getD` fallback in statements. -/
def defaultPipeCall : PipeCall :=
  { history := [], predLen := 0, numSamples := CVal.vnone,
    temperature := CVal.vnone, topK := CVal.vnone, topP := CVal.vnone,
    limitPredictionLength := false }

/-- Default `PanelGroup`, used only as a `getD` fallback in statements. -/
def defaultGroup : PanelGroup := { key := 0, times := [], values := [] }

/-- The opaque pretrained pipeline: its maximum context length
(`model.config.context_length`) and its sampling entry point, a
deterministic function of the global random state and the call arguments,
returning the sampled trajectories (shape `num_samples × prediction_length`)
together with the advanced random state. -/
structure ChronosPipeline where
  contextLength : Nat
  run : Int → PipeCall → List (List Rat) × Int

/-- Adapter state: constructor arguments, derived seed and merged config,
the lazily loaded pipeline, and the series/cutoff retained by the
framework's fit. -/
structure ChronosForecaster where
  modelPath : String
  config : List (String × CVal)
  seedParam : Option Int
  seedUsed : Int
  modelPipeline : Option ChronosPipeline
  storedY : YData
  cutoff : Int

/-- `np.random.randint(0, 2**31)`: an arbitrary pseudo-random draw reduced
into the interval `[0, 2^31)`. -/
def genSeed (draw : Nat) : Int := ((draw % 2 ^ 31 : Nat) : Int)

/-- `ChronosForecaster.__init__` (chronos.py lines 86-106): stores the
seed (drawing one when absent), merges the caller config over the default
config, and leaves the pipeline unloaded. The series and cutoff fields are
placeholders until the framework's fit stores them. -/
def chronosInit (modelPath : String) (config : Option (List (String × CVal)))
    (seed : Option Int) (draw : Nat) : ChronosForecaster :=
  { modelPath := modelPath,
    config := dictUpdate defaultConfig (config.getD []),
    seedParam := seed,
    seedUsed := match seed with
      | none => genSeed draw
      | some s => s,
    modelPipeline := none,
    storedY := YData.flat [] [],
    cutoff := 0 }

/-- Framework-side bookkeeping of `fit`: the base class stores the training
series and its cutoff on the instance (out of scope of the adapter's own
code, modelled for state threading). -/
def frameworkStoreY (st : ChronosForecaster) (y : YData) (cutoff : Int) :
    ChronosForecaster :=
  { st with storedY := y, cutoff := cutoff }

/-- `ChronosForecaster._fit` (chronos.py lines 126-131): load the pipeline
from the stored model path, dtype and device map, but only when none is
loaded yet. `load` models `ChronosPipeline.from_pretrained`. -/
def chronosFit (load : String → CVal → CVal → ChronosPipeline)
    (st : ChronosForecaster) : ChronosForecaster :=
  match st.modelPipeline with
  | none =>
      let loaded :=
        load st.modelPath (lookupD kTorchDtype st.config)
          (lookupD kDeviceMap st.config)
      { st with modelPipeline := some loaded }
  | some _ => st

/-- Error message of the `_same_index` assertion (chronos.py line 259). -/
def sameIndexMsg : String := "All series must has the same index"

/-- `_same_index` (chronos.py lines 253-260): group by all key levels and
require every group's time index to equal the first group's; return the
shared index and its length. An empty frame fails at `data.iloc[0]`. -/
def sameIndexCheck : List PanelGroup → Except String (List Int × Nat)
  | [] => Except.error "single positional indexer is out-of-bounds"
  | g :: rest =>
      if rest.all (fun g2 => g2.times == g.times) then
        Except.ok (g.times, g.times.length)
      else Except.error sameIndexMsg

/-- `_frame2numpy` (chronos.py lines 263-268): after the shared-index
check, reshape the frame's values into one row of values per group. -/
def frame2numpy (gs : List PanelGroup) :
    Except String (List (List Rat) × Nat) :=
  match sameIndexCheck gs with
  | Except.error e => Except.error e
  | Except.ok p => Except.ok (gs.map (fun g => g.values), p.2)

/-- Python slice `xs[-c:]` on a list: the whole list when `c = 0` (since
`-0 = 0`), otherwise the most recent `c` elements. -/
def pySliceLast (c : Nat) (xs : List Rat) : List Rat :=
  if c = 0 then xs else xs.drop (xs.length - c)

/-- `np.median` of a 1-D array: sort ascending, then take the middle
element (odd length) or the mean of the two middle elements (even
length). -/
def npMedian (xs : List Rat) : Rat :=
  let s := xs.insertionSort (· ≤ ·)
  let n := xs.length
  if n % 2 = 1 then s.getD (n / 2) 0
  else (s.getD (n / 2 - 1) 0 + s.getD (n / 2) 0) / 2

/-- Column `t` of a rectangular matrix given as a list of rows. -/
def colAt (rows : List (List Rat)) (t : Nat) : List Rat :=
  rows.map (fun s => s.getD t 0)

/-- `np.median(a, axis=0)` on a rectangular `n × h` array: the per-column
medians, `h` read off the first row. -/
def medianAxis0 (samples : List (List Rat)) : List Rat :=
  (List.range (samples.headD []).length).map (fun t => npMedian (colAt samples t))

/-- `np.unique` on the panel's key level: sorted distinct keys. -/
def npUnique (xs : List Int) : List Int :=
  (xs.insertionSort (· ≤ ·)).dedup

/-- `keys.repeat(h)` (numpy `repeat`): each key repeated `h` times in
place. -/
def repeatEach (ks : List Int) (h : Nat) : List Int :=
  ks.flatMap (fun k => List.replicate h k)

/-- Python `ts * k` (list repetition): `ts` tiled `k` times. -/
def tileList (ts : List Int) (k : Nat) : List Int :=
  (List.replicate k ts).flatten

/-- `np.stack(results, axis=1).reshape(-1, 1)` on `k` rows of length `h`:
the row-major flattening of the `h × k` stacked array, i.e. for each time
step the values of all groups at that step. -/
def stackFlatten (results : List (List Rat)) : List Rat :=
  (List.range (results.headD []).length).flatMap
    (fun t => results.map (fun r => r.getD t 0))

/-- Absolute future time points `cutoff + 1, …, cutoff + h`, i.e.
`ForecastingHorizon(range(1, h + 1)).to_absolute(cutoff)`. -/
def absTimes (cutoff : Int) (h : Nat) : List Int :=
  (List.range h).map (fun i => cutoff + (↑i + 1))

/-- Python `max` of a nonempty list of ints (`0` on the empty list, where
Python would raise). -/
def listMax : List Int → Int
  | [] => 0
  | x :: xs => xs.foldl max x

/-- `transformers.set_seed(seed)`: replace the global random state by the
state determined by the seed, discarding the previous state. -/
def transformersSetSeed (seed : Int) (_rng : Int) : Int := seed

/-- The `prediction_length` computation (chronos.py lines 151-155):
`int(max(fh.to_relative(cutoff)))`, or `1` when `fh` is `None`. -/
def predictionLengthOf (fh : Option (List Int)) : Int :=
  match fh with
  | some f => listMax f
  | none => 1

/-- The arguments assembled for one pipeline call (chronos.py lines
170-180): the history truncated to the context length `c`, the requested
prediction length, the merged sampling configuration, and
`limit_prediction_length=False`. -/
def mkCall (c : Nat) (cfg : List (String × CVal)) (plen : Int)
    (v : List Rat) : PipeCall :=
  { history := pySliceLast c v,
    predLen := plen,
    numSamples := lookupD kNumSamples cfg,
    temperature := lookupD kTemperature cfg,
    topK := lookupD kTopK cfg,
    topP := lookupD kTopP cfg,
    limitPredictionLength := false }

/-- The per-group loop of `_predict` (chronos.py lines 168-183): for each
group row, truncate to the context length, call the pipeline with the
merged sampling configuration and `limit_prediction_length=False`, and
take the per-step median of the returned samples. Returns the point
forecasts, the trace of pipeline calls with their responses, and the final
random state. -/
def runGroups (pipe : ChronosPipeline) (cfg : List (String × CVal))
    (plen : Int) : List (List Rat) → Int →
    List (List Rat) × List (PipeCall × List (List Rat)) × Int
  | [], rng => ([], [], rng)
  | v :: rest, rng =>
      let call : PipeCall := mkCall pipe.contextLength cfg plen v
      let res := pipe.run rng call
      let tail := runGroups pipe cfg plen rest res.2
      (medianAxis0 res.1 :: tail.1, (call, res.1) :: tail.2.1, tail.2.2)

/-- The reassembly and horizon filter of `_predict` (chronos.py lines
202-218): pair the generated row index with the flattened predictions and
keep the rows whose (last-level) time point lies in the absolutized
requested horizon (`fh.get_expected_pred_idx`); with `fh = None` the
Python code fails with an attribute error at that point. -/
def mkTable (fh : Option (List Int)) (cutoff : Int)
    (index : List (Option Int × Int)) (vals : List Rat) :
    Except String (List (Option Int × Int × Rat)) :=
  match fh with
  | none => Except.error "AttributeError: NoneType object"
  | some f =>
      let predOut := f.map (fun o => cutoff + o)
      Except.ok
        (((index.zip vals).map (fun p => (p.1.1, p.1.2, p.2))).filter
          (fun r => decide (r.2.1 ∈ predOut)))

/-- Result of one `_predict` call: the returned table (or the raised
error), the per-group point forecasts (`results`), the trace of pipeline
calls with responses, the final global random state, and the adapter state
after the call. -/
structure PredictOut where
  table : Except String (List (Option Int × Int × Rat))
  pointForecasts : List (List Rat)
  callTrace : List (PipeCall × List (List Rat))
  rngOut : Int
  stateOut : ChronosForecaster

/-- `PredictOut` for the paths that fail before any pipeline call. -/
def earlyFailOut (st : ChronosForecaster) (rng : Int) (e : String) :
    PredictOut :=
  { table := Except.error e, pointForecasts := [], callTrace := [],
    rngOut := rng, stateOut := st }

/-- `ChronosForecaster._predict` (chronos.py lines 133-218). The horizon
`fh` is modelled by its relative step offsets (`fh.to_relative(cutoff)`),
`rngIn` is the ambient global random state on entry. Steps: seed the
global state from the stored seed; compute the prediction length; take a
copy of the caller series or of the stored series; reshape it to one row
per group (asserting the shared panel index); per group truncate, call the
pipeline and take the median; reassemble with the generated index and
filter to the requested horizon. No field of the adapter state is
written. -/
def chronosPredict (st : ChronosForecaster) (rngIn : Int)
    (fh : Option (List Int)) (y : Option YData) : PredictOut :=
  let rng0 := transformersSetSeed st.seedUsed rngIn
  let plen : Int := predictionLengthOf fh
  match y.getD st.storedY with
  | YData.flat _ts vals =>
      match st.modelPipeline with
      | none => earlyFailOut st rng0 "AttributeError: NoneType model_pipeline"
      | some pipe =>
          let gr := runGroups pipe st.config plen [vals] rng0
          let h := (gr.1.headD []).length
          let tbl := mkTable fh st.cutoff
            ((absTimes st.cutoff h).map (fun t => ((none : Option Int), t)))
            (stackFlatten gr.1)
          { table := tbl, pointForecasts := gr.1, callTrace := gr.2.1,
            rngOut := gr.2.2, stateOut := st }
  | YData.panel gs =>
      match frame2numpy gs with
      | Except.error e => earlyFailOut st rng0 e
      | Except.ok p =>
          match st.modelPipeline with
          | none => earlyFailOut st rng0 "AttributeError: NoneType model_pipeline"
          | some pipe =>
              let gr := runGroups pipe st.config plen p.1 rng0
              let h := (gr.1.headD []).length
              let k := gr.1.length
              let keyCol := repeatEach (npUnique (gs.map (fun g => g.key))) h
              let timeCol := tileList (absTimes st.cutoff h) k
              let tbl := mkTable fh st.cutoff
                ((keyCol.zip timeCol).map (fun q => (some q.1, q.2)))
                (stackFlatten gr.1)
              { table := tbl, pointForecasts := gr.1, callTrace := gr.2.1,
                rngOut := gr.2.2, stateOut := st }

/-- A per-step median of a sample multiset: at least half the samples lie
at or below it and at least half lie at or above it. -/
def IsMedianOf (m : Rat) (xs : List Rat) : Prop :=
  xs.length ≤ 2 * xs.countP (fun x => decide (x ≤ m)) ∧
  xs.length ≤ 2 * xs.countP (fun x => decide (m ≤ x))

/-- Extract the row list of a successful table (`[]` on an error). -/
def tableRows (e : Except String (List (Option Int × Int × Rat))) :
    List (Option Int × Int × Rat) :=
  match e with
  | Except.ok r => r
  | Except.error _ => []

/-- The model identifier used by the concrete test fixtures (the test
parameter set of `get_test_params`). -/
def mPath : String := "amazon/chronos-t5-tiny"

/-- Concrete deterministic pipeline: one sampled trajectory per call,
continuing the history `[10]` by `[11, 12]` and any other history by
`[21, 22]`; the random state advances by one per call. -/
def pipeC1 : ChronosPipeline :=
  { contextLength := 10,
    run := fun rng c =>
      (if c.history = [(10 : Rat)] then [[11, 12]] else [[21, 22]],
       rng + 1) }

/-- Concrete panel group with key 0, one observation at time 0. -/
def gA : PanelGroup := { key := 0, times := [0], values := [10] }

/-- Concrete panel group with key 1, one observation at time 0. -/
def gB : PanelGroup := { key := 1, times := [0], values := [20] }

/-- Concrete panel group with key 1 and a time index differing from
`gA`'s. -/
def gBmis : PanelGroup := { key := 1, times := [0, 1], values := [20, 21] }

/-- Concrete adapter state holding `pipeC1`, seed 42, cutoff 0. -/
def stC1 : ChronosForecaster :=
  { modelPath := mPath,
    config := dictUpdate defaultConfig [],
    seedParam := some 42, seedUsed := 42,
    modelPipeline := some pipeC1,
    storedY := YData.flat [] [], cutoff := 0 }

/-- Concrete loader returning a fixed pipeline regardless of arguments. -/
def loadW : String → CVal → CVal → ChronosPipeline :=
  fun _ _ _ => { contextLength := 512, run := fun rng _ => ([[0]], rng) }

/-- Freshly initialized adapter (no pipeline loaded yet). -/
def stW8 : ChronosForecaster := chronosInit mPath none (some 1) 0

/-- Concrete deterministic pipeline returning two constant trajectories of
the requested length (values 7 and 9), so the per-step median is 8. -/
def pipeTwo : ChronosPipeline :=
  { contextLength := 100,
    run := fun rng c =>
      ([List.replicate c.predLen.toNat 7, List.replicate c.predLen.toNat 9],
       rng + 1) }

/-- Concrete adapter state holding `pipeTwo`, cutoff 10. -/
def stTwo : ChronosForecaster :=
  { modelPath := mPath,
    config := dictUpdate defaultConfig [],
    seedParam := none, seedUsed := 5,
    modelPipeline := some pipeTwo,
    storedY := YData.flat [] [], cutoff := 10 }

/-- Caller configuration of the second test parameter set
(`num_samples = 20`). -/
def cfgW : List (String × CVal) := [(kNumSamples, CVal.vint 20)]

/-! ### Dictionary lemmas -/

theorem dictLookup_dictSet_self (d : List (String × CVal)) (k : String)
    (v : CVal) : dictLookup k (dictSet d k v) = some v := by
  induction d with
  | nil => simp [dictSet, dictLookup]
  | cons p rest ih =>
      rcases p with ⟨k1, v1⟩
      by_cases hp : k1 = k
      · simp [dictSet, hp, dictLookup]
      · simp only [dictSet, if_neg hp, dictLookup]
        exact ih

theorem dictLookup_dictSet_ne (d : List (String × CVal)) (k k2 : String)
    (v : CVal) (h : k2 ≠ k) :
    dictLookup k2 (dictSet d k v) = dictLookup k2 d := by
  have hk2 : ¬k = k2 := fun hk => h hk.symm
  induction d with
  | nil =>
      show (if k = k2 then some v else dictLookup k2 []) = dictLookup k2 []
      rw [if_neg hk2]
  | cons p rest ih =>
      rcases p with ⟨k1, v1⟩
      by_cases hp : k1 = k
      · have hk1 : ¬k1 = k2 := fun hk => h (hk.symm.trans hp)
        simp only [dictSet, if_pos hp, dictLookup]
        rw [if_neg hk2, if_neg hk1]
      · simp only [dictSet, if_neg hp, dictLookup]
        by_cases hq : k1 = k2
        · simp [hq]
        · rw [if_neg hq, if_neg hq]
          exact ih

theorem dictLookup_dictUpdate_not_mem (upd : List (String × CVal))
    (base : List (String × CVal)) (k : String)
    (h : k ∉ upd.map Prod.fst) :
    dictLookup k (dictUpdate base upd) = dictLookup k base := by
  induction upd generalizing base with
  | nil => rfl
  | cons kv rest ih =>
      simp only [List.map_cons, List.mem_cons] at h
      push_neg at h
      have step : dictUpdate base (kv :: rest) = dictUpdate (dictSet base kv.1 kv.2) rest := rfl
      rw [step, ih _ h.2, dictLookup_dictSet_ne _ _ _ _ (fun hk => h.1 hk)]

theorem dictLookup_dictUpdate_of_mem (upd : List (String × CVal))
    (base : List (String × CVal)) (k : String) (v : CVal)
    (hnd : (upd.map Prod.fst).Nodup) (hm : (k, v) ∈ upd) :
    dictLookup k (dictUpdate base upd) = some v := by
  induction upd generalizing base with
  | nil => simp at hm
  | cons kv rest ih =>
      have step : dictUpdate base (kv :: rest) = dictUpdate (dictSet base kv.1 kv.2) rest := rfl
      simp only [List.map_cons, List.nodup_cons] at hnd
      rcases List.mem_cons.mp hm with heq | hmem
      · have hk : kv.1 = k := by rw [← heq]
        have hv : kv.2 = v := by rw [← heq]
        have hnotin : k ∉ rest.map Prod.fst := by rw [← hk]; exact hnd.1
        rw [step, dictLookup_dictUpdate_not_mem rest _ k hnotin, hk, hv,
          dictLookup_dictSet_self]
      · exact step ▸ ih _ hnd.2 hmem

/-! ### State threading of predict -/

theorem chronosPredict_stateOut (st : ChronosForecaster) (rng : Int)
    (fh : Option (List Int)) (y : Option YData) :
    (chronosPredict st rng fh y).stateOut = st := by
  unfold chronosPredict
  cases hy : y.getD st.storedY with
  | flat ts vals =>
      cases hp : st.modelPipeline with
      | none => simp [earlyFailOut]
      | some pipe => simp
  | panel gs =>
      cases hf : frame2numpy gs with
      | error e => simp [hf, earlyFailOut]
      | ok p =>
          cases hp : st.modelPipeline with
          | none => simp [hf, hp, earlyFailOut]
          | some pipe => simp [hf, hp]

/-- Claim C7: the result of `_predict` is independent of the ambient global
random state on entry, because the call seeds the global state from the
stored seed (`transformers.set_seed(self._seed)`) before anything else.
With the pipeline's sampling modelled as a deterministic function of that
state, two predict calls on the same state with identical inputs — in
particular a second call whose incoming random state is whatever the first
call left behind — return identical outputs. -/
theorem chronos_predict_reproducible (st : ChronosForecaster)
    (rng1 rng2 : Int) (fh : Option (List Int)) (y : Option YData) :
    chronosPredict st rng1 fh y = chronosPredict st rng2 fh y := rfl

/-- Claim C8: `_fit` loads the pipeline at most once. On a state with no
pipeline loaded, it stores the pipeline produced by the loader from the
stored model path, `torch_dtype` and `device_map`; fitting an already
fitted state changes nothing, so fit after fit equals fit. -/
theorem chronos_fit_loads_once (load : String → CVal → CVal → ChronosPipeline)
    (st : ChronosForecaster) :
    (st.modelPipeline = none →
      (chronosFit load st).modelPipeline =
        some (load st.modelPath (lookupD kTorchDtype st.config)
          (lookupD kDeviceMap st.config))) ∧
    chronosFit load (chronosFit load st) = chronosFit load st := by
  constructor
  · intro h
    simp [chronosFit, h]
  · cases hp : st.modelPipeline with
    | none => simp [chronosFit, hp]
    | some pipe => simp [chronosFit, hp]

/-- Witness for C8 at a concrete loader and a freshly initialized state. -/
theorem chronos_fit_loads_once_witness :
    (chronosFit loadW stW8).modelPipeline =
      some (loadW stW8.modelPath (lookupD kTorchDtype stW8.config)
        (lookupD kDeviceMap stW8.config)) ∧
    chronosFit loadW (chronosFit loadW stW8) = chronosFit loadW stW8 :=
  ⟨(chronos_fit_loads_once loadW stW8).1 rfl,
   (chronos_fit_loads_once loadW stW8).2⟩

/-- Claim C10: `_predict` does not write any field of the adapter: it
operates on a copy of the stored (or caller-supplied) series, so the
stored historical data after the call equals the stored historical data
before the call. -/
theorem chronos_predict_preserves_stored_history (st : ChronosForecaster)
    (rng : Int) (fh : Option (List Int)) (y : Option YData) :
    (chronosPredict st rng fh y).stateOut.storedY = st.storedY := by
  rw [chronosPredict_stateOut]

/-- Claim C9: after `__init__`, the merged configuration maps every
caller-supplied key to the caller's value and every key the caller did not
supply (in particular each remaining documented default key) to its value
in the default configuration; the stored seed is the caller's seed when
given, else the pseudo-random draw reduced to `[0, 2^31)`; and no predict
call ever changes the stored seed. -/
theorem chronos_init_config_merge_and_seed (modelPath : String)
    (cfg : List (String × CVal)) (seed : Option Int) (draw : Nat)
    (hnd : (cfg.map Prod.fst).Nodup) :
    (∀ k v, (k, v) ∈ cfg →
      dictLookup k (chronosInit modelPath (some cfg) seed draw).config = some v) ∧
    (∀ k, k ∉ cfg.map Prod.fst →
      dictLookup k (chronosInit modelPath (some cfg) seed draw).config =
        dictLookup k defaultConfig) ∧
    (∀ s, seed = some s →
      (chronosInit modelPath (some cfg) seed draw).seedUsed = s) ∧
    (seed = none →
      (chronosInit modelPath (some cfg) seed draw).seedUsed = genSeed draw) ∧
    (∀ (st2 : ChronosForecaster) (rng : Int) (fh : Option (List Int))
        (y : Option YData),
      (chronosPredict st2 rng fh y).stateOut.seedUsed = st2.seedUsed) := by
  refine ⟨?_, ?_, ?_, ?_, ?_⟩
  · intro k v hm
    exact dictLookup_dictUpdate_of_mem cfg defaultConfig k v hnd hm
  · intro k hk
    exact dictLookup_dictUpdate_not_mem cfg defaultConfig k hk
  · intro s hs
    simp [chronosInit, hs]
  · intro hs
    simp [chronosInit, hs]
  · intro st2 rng fh y
    rw [chronosPredict_stateOut]

/-- Witness for C9 at the second test parameter set
(`num_samples = 20`, seed 42): the supplied key maps to the supplied
value, an unsupplied documented key keeps its default, and the stored seed
is 42. -/
theorem chronos_init_config_merge_and_seed_witness :
    dictLookup kNumSamples
      (chronosInit mPath (some cfgW) (some 42) 7).config = some (CVal.vint 20) ∧
    dictLookup kTemperature
      (chronosInit mPath (some cfgW) (some 42) 7).config =
        dictLookup kTemperature defaultConfig ∧
    (chronosInit mPath (some cfgW) (some 42) 7).seedUsed = 42 :=
  ⟨(chronos_init_config_merge_and_seed mPath cfgW (some 42) 7 (by decide)).1
      kNumSamples (CVal.vint 20) (by decide),
   (chronos_init_config_merge_and_seed mPath cfgW (some 42) 7 (by decide)).2.1
      kTemperature (by decide),
   (chronos_init_config_merge_and_seed mPath cfgW (some 42) 7 (by decide)).2.2.1
      42 rfl⟩

/-- Branch lemma: a panel whose reshape fails makes `_predict` return the
reshape error with no pipeline call, for any adapter state. -/
theorem chronosPredict_panel_error (st : ChronosForecaster) (rng : Int)
    (fh : Option (List Int)) (gs : List PanelGroup) (e : String)
    (hf : frame2numpy gs = Except.error e) :
    chronosPredict st rng fh (some (YData.panel gs)) =
      earlyFailOut st st.seedUsed e := by
  simp [chronosPredict, hf, transformersSetSeed]

/-- Claim C2: a panel whose groups do not all share the first group's time
index fails the `_same_index` assertion during reshaping: `_predict`
returns the assertion error, issues no pipeline call, and the outcome is
the same whatever pipeline (or none at all) is installed — the failure
happens before the pipeline is consulted. -/
theorem chronos_panel_mismatch_rejected_before_pipeline
    (st : ChronosForecaster) (rng : Int) (fh : Option (List Int))
    (g : PanelGroup) (rest : List PanelGroup)
    (hdiff : ¬∀ g2 ∈ rest, g2.times = g.times) :
    chronosPredict st rng fh (some (YData.panel (g :: rest))) =
      earlyFailOut st st.seedUsed sameIndexMsg ∧
    (chronosPredict st rng fh (some (YData.panel (g :: rest)))).callTrace = [] ∧
    ∀ mp : Option ChronosPipeline,
      chronosPredict { st with modelPipeline := mp } rng fh
          (some (YData.panel (g :: rest))) =
        earlyFailOut { st with modelPipeline := mp } st.seedUsed sameIndexMsg := by
  have hall : (rest.all (fun g2 => g2.times == g.times)) = false := by
    cases hb : rest.all (fun g2 => g2.times == g.times) with
    | false => rfl
    | true =>
        exact absurd (fun g2 hg2 => eq_of_beq (List.all_eq_true.mp hb g2 hg2)) hdiff
  have hsi : sameIndexCheck (g :: rest) = Except.error sameIndexMsg := by
    simp [sameIndexCheck, hall]
  have hf2 : frame2numpy (g :: rest) = Except.error sameIndexMsg := by
    simp [frame2numpy, hsi]
  refine ⟨chronosPredict_panel_error st rng fh _ _ hf2, ?_, ?_⟩
  · rw [chronosPredict_panel_error st rng fh _ _ hf2]
    rfl
  · intro mp
    exact chronosPredict_panel_error { st with modelPipeline := mp } rng fh _ _ hf2

/-- Witness for C2 at a concrete mismatched two-group panel. -/
theorem chronos_panel_mismatch_rejected_before_pipeline_witness :
    chronosPredict stC1 0 (some [1]) (some (YData.panel [gA, gBmis])) =
      earlyFailOut stC1 stC1.seedUsed sameIndexMsg ∧
    (chronosPredict stC1 0 (some [1]) (some (YData.panel [gA, gBmis]))).callTrace = [] :=
  ⟨(chronos_panel_mismatch_rejected_before_pipeline stC1 0 (some [1]) gA [gBmis]
      (by decide)).1,
   (chronos_panel_mismatch_rejected_before_pipeline stC1 0 (some [1]) gA [gBmis]
      (by decide)).2.1⟩

/-- Claim C1 (failing input): a two-group panel, two-step horizon. Group 0
(history ending at 10) gets the per-step medians `[11, 12]` from its own
history and group 1 (history ending at 20) gets `[21, 22]`, as the point
forecasts confirm. But the returned table pairs the key-major row index
with the time-major flattening of `np.stack(results, axis=1)`: row
`(key 0, t = cutoff + 2)` carries 21 — group 1's step-1 forecast — instead
of group 0's own step-2 forecast 12, and row `(key 1, t = cutoff + 1)`
carries 12 instead of 21. The row index is the expected cross-product, but
the value assignment is transposed whenever both the number of groups and
the horizon length exceed one. -/
theorem chronos_panel_value_assignment_bug :
    (chronosPredict stC1 0 (some [1, 2]) (some (YData.panel [gA, gB]))).pointForecasts =
      [[11, 12], [21, 22]] ∧
    (chronosPredict stC1 0 (some [1, 2]) (some (YData.panel [gA, gB]))).table.toOption =
      some
        [(some 0, 1, 11), (some 0, 2, 21), (some 1, 1, 12), (some 1, 2, 22)] ∧
    ((12 : Rat) ≠ 21) :=
  ⟨by decide, by decide, by decide⟩

/-! ### Shape of the per-group loop -/

theorem runGroups_trace_calls (pipe : ChronosPipeline)
    (cfg : List (String × CVal)) (plen : Int) :
    ∀ (vss : List (List Rat)) (rng : Int),
      ((runGroups pipe cfg plen vss rng).2.1).map (fun e => e.1) =
        vss.map (fun v => mkCall pipe.contextLength cfg plen v) := by
  intro vss
  induction vss with
  | nil => intro rng; rfl
  | cons v rest ih =>
      intro rng
      simp only [runGroups, List.map_cons]
      exact congrArg _ (ih _)

theorem runGroups_results_eq (pipe : ChronosPipeline)
    (cfg : List (String × CVal)) (plen : Int) :
    ∀ (vss : List (List Rat)) (rng : Int),
      (runGroups pipe cfg plen vss rng).1 =
        ((runGroups pipe cfg plen vss rng).2.1).map (fun e => medianAxis0 e.2) := by
  intro vss
  induction vss with
  | nil => intro rng; rfl
  | cons v rest ih =>
      intro rng
      simp only [runGroups, List.map_cons]
      exact congrArg _ (ih _)

theorem runGroups_trace_length (pipe : ChronosPipeline)
    (cfg : List (String × CVal)) (plen : Int) (vss : List (List Rat))
    (rng : Int) :
    (runGroups pipe cfg plen vss rng).2.1.length = vss.length := by
  have h := congrArg List.length (runGroups_trace_calls pipe cfg plen vss rng)
  simpa using h

theorem runGroups_predLen (pipe : ChronosPipeline)
    (cfg : List (String × CVal)) (plen : Int) (vss : List (List Rat))
    (rng : Int) :
    ∀ e ∈ (runGroups pipe cfg plen vss rng).2.1, e.1.predLen = plen := by
  intro e he
  have h1 : e.1 ∈ ((runGroups pipe cfg plen vss rng).2.1).map (fun e => e.1) :=
    List.mem_map_of_mem _ he
  rw [runGroups_trace_calls] at h1
  obtain ⟨v, hv, heq⟩ := List.mem_map.mp h1
  rw [← heq]
  rfl

/-- Claim C4: every pipeline call of a predict invocation passes exactly
the prediction length `int(max(fh.to_relative(cutoff)))` — the maximum
relative step offset of the horizon — and exactly 1 when the horizon is
absent. -/
theorem chronos_prediction_length_passed (st : ChronosForecaster)
    (rng : Int) (fh : Option (List Int)) (y : Option YData) :
    ∀ e ∈ (chronosPredict st rng fh y).callTrace,
      e.1.predLen = predictionLengthOf fh := by
  intro e
  unfold chronosPredict
  cases hy : y.getD st.storedY with
  | flat ts vals =>
      cases hp : st.modelPipeline with
      | none => intro he; simp [earlyFailOut] at he
      | some pipe =>
          intro he
          exact runGroups_predLen pipe st.config (predictionLengthOf fh)
            [vals] _ e he
  | panel gs =>
      cases hf : frame2numpy gs with
      | error er => simp only [hf]; intro he; simp [earlyFailOut] at he
      | ok p =>
          simp only [hf]
          cases hp : st.modelPipeline with
          | none => intro he; simp [earlyFailOut] at he
          | some pipe =>
              intro he
              exact runGroups_predLen pipe st.config (predictionLengthOf fh)
                p.1 _ e he

/-- Witness for C4: the single call of a concrete flat predict with
horizon `[3, 1]` carries prediction length 3. -/
theorem chronos_prediction_length_passed_witness :
    ((chronosPredict stC1 0 (some [3, 1]) (some (YData.flat [0] [10]))).callTrace.headD
        (defaultPipeCall, [])).1.predLen = predictionLengthOf (some [3, 1]) :=
  chronos_prediction_length_passed stC1 0 (some [3, 1])
    (some (YData.flat [0] [10])) _ (by decide)

theorem pySliceLast_length (c : Nat) (xs : List Rat) (hc : 0 < c) :
    (pySliceLast c xs).length = min xs.length c := by
  unfold pySliceLast
  rw [if_neg (Nat.pos_iff_ne_zero.mp hc), List.length_drop]
  omega

theorem pySliceLast_suffix (c : Nat) (xs : List Rat) :
    pySliceLast c xs <:+ xs := by
  unfold pySliceLast
  split
  · exact List.suffix_refl xs
  · exact List.drop_suffix _ _

theorem frame2numpy_ok_of_same (g : PanelGroup) (rest : List PanelGroup)
    (hsame : ∀ g2 ∈ rest, g2.times = g.times) :
    frame2numpy (g :: rest) =
      Except.ok ((g :: rest).map (fun g2 => g2.values), g.times.length) := by
  have hall : (rest.all (fun g2 => g2.times == g.times)) = true :=
    List.all_eq_true.mpr (fun g2 hg2 => beq_iff_eq.mpr (hsame g2 hg2))
  simp [frame2numpy, sameIndexCheck, hall]

theorem trace_getD_call (pipe : ChronosPipeline) (cfg : List (String × CVal))
    (plen : Int) (vss : List (List Rat)) (rng : Int) (i : Nat)
    (hi : i < vss.length) :
    (((runGroups pipe cfg plen vss rng).2.1).getD i (defaultPipeCall, [])).1 =
      mkCall pipe.contextLength cfg plen (vss.getD i []) := by
  have hmapT := runGroups_trace_calls pipe cfg plen vss rng
  have hTlen := runGroups_trace_length pipe cfg plen vss rng
  have hi2 : i < (runGroups pipe cfg plen vss rng).2.1.length := by
    rw [hTlen]; exact hi
  have h5 := congrArg (fun L => L[i]?) hmapT
  simp only [List.getElem?_map] at h5
  rw [List.getElem?_eq_getElem hi2, List.getElem?_eq_getElem hi] at h5
  simp only [Option.map_some'] at h5
  rw [List.getD_eq_getElem _ _ hi2, List.getD_eq_getElem _ _ hi]
  exact Option.some.inj h5

/-- Claim C5: in a panel predict over groups sharing one time index, every
group's pipeline call receives exactly the most recent
`min(L, context_length)` steps of that group's own series (a suffix of
it), together with the merged sampling configuration (sample count,
temperature, top-k, top-p) and with prediction-length limiting disabled.
`context_length` must be positive (as it is for every real Chronos model);
at `context_length = 0` the Python slice `[-0:]` would keep the whole
series instead. -/
theorem chronos_group_history_truncation (st : ChronosForecaster)
    (rng : Int) (fh : Option (List Int)) (pipe : ChronosPipeline)
    (g : PanelGroup) (rest : List PanelGroup)
    (hpm : st.modelPipeline = some pipe)
    (hc : 0 < pipe.contextLength)
    (hsame : ∀ g2 ∈ rest, g2.times = g.times) :
    (chronosPredict st rng fh (some (YData.panel (g :: rest)))).callTrace.length =
      (g :: rest).length ∧
    ∀ i, i < (g :: rest).length →
      ((chronosPredict st rng fh (some (YData.panel (g :: rest)))).callTrace.getD
          i (defaultPipeCall, [])).1.history.length =
        min ((g :: rest).getD i defaultGroup).values.length pipe.contextLength ∧
      ((chronosPredict st rng fh (some (YData.panel (g :: rest)))).callTrace.getD
          i (defaultPipeCall, [])).1.history <:+
        ((g :: rest).getD i defaultGroup).values ∧
      ((chronosPredict st rng fh (some (YData.panel (g :: rest)))).callTrace.getD
          i (defaultPipeCall, [])).1.numSamples = lookupD kNumSamples st.config ∧
      ((chronosPredict st rng fh (some (YData.panel (g :: rest)))).callTrace.getD
          i (defaultPipeCall, [])).1.temperature = lookupD kTemperature st.config ∧
      ((chronosPredict st rng fh (some (YData.panel (g :: rest)))).callTrace.getD
          i (defaultPipeCall, [])).1.topK = lookupD kTopK st.config ∧
      ((chronosPredict st rng fh (some (YData.panel (g :: rest)))).callTrace.getD
          i (defaultPipeCall, [])).1.topP = lookupD kTopP st.config ∧
      ((chronosPredict st rng fh (some (YData.panel (g :: rest)))).callTrace.getD
          i (defaultPipeCall, [])).1.limitPredictionLength = false := by
  have hf := frame2numpy_ok_of_same g rest hsame
  have htr : (chronosPredict st rng fh (some (YData.panel (g :: rest)))).callTrace =
      (runGroups pipe st.config (predictionLengthOf fh)
        ((g :: rest).map (fun g2 => g2.values)) st.seedUsed).2.1 := by
    simp [chronosPredict, hf, hpm, transformersSetSeed]
  constructor
  · rw [htr, runGroups_trace_length]
    simp
  · intro i hi
    have hi3 : i < ((g :: rest).map (fun g2 => g2.values)).length := by
      simpa using hi
    have hcall :
        ((chronosPredict st rng fh (some (YData.panel (g :: rest)))).callTrace.getD
            i (defaultPipeCall, [])).1 =
          mkCall pipe.contextLength st.config (predictionLengthOf fh)
            (((g :: rest).map (fun g2 => g2.values)).getD i []) := by
      rw [htr]
      exact trace_getD_call pipe st.config (predictionLengthOf fh) _ _ i hi3
    have hv : ((g :: rest).map (fun g2 => g2.values)).getD i [] =
        ((g :: rest).getD i defaultGroup).values := by
      rw [List.getD_eq_getElem _ _ hi3, List.getD_eq_getElem _ _ hi,
        List.getElem_map]
    rw [hcall, hv]
    refine ⟨?_, ?_, rfl, rfl, rfl, rfl, rfl⟩
    · exact pySliceLast_length _ _ hc
    · exact pySliceLast_suffix _ _

/-- Witness for C5 at the concrete two-group panel: two calls are issued,
the first call's history is the single most recent step of group 0's
series, and limiting is disabled. -/
theorem chronos_group_history_truncation_witness :
    (chronosPredict stC1 0 (some [1]) (some (YData.panel [gA, gB]))).callTrace.length = 2 ∧
    ((chronosPredict stC1 0 (some [1]) (some (YData.panel [gA, gB]))).callTrace.getD
        0 (defaultPipeCall, [])).1.history.length = 1 ∧
    ((chronosPredict stC1 0 (some [1]) (some (YData.panel [gA, gB]))).callTrace.getD
        0 (defaultPipeCall, [])).1.limitPredictionLength = false :=
  ⟨(chronos_group_history_truncation stC1 0 (some [1]) pipeC1 gA [gB] rfl
      (by decide) (by decide)).1,
   ((chronos_group_history_truncation stC1 0 (some [1]) pipeC1 gA [gB] rfl
      (by decide) (by decide)).2 0 (by decide)).1,
   ((chronos_group_history_truncation stC1 0 (some [1]) pipeC1 gA [gB] rfl
      (by decide) (by decide)).2 0 (by decide)).2.2.2.2.2.2⟩

/-! ### Median lemmas -/

theorem sorted_countP_le_getD (s : List Rat)
    (hs : List.Sorted (· ≤ ·) s) (i : Nat) (hi : i < s.length) :
    i + 1 ≤ s.countP (fun x => decide (x ≤ s.getD i 0)) := by
  have hsplit : ∀ p : Rat → Bool, s.countP p =
      (s.take (i + 1)).countP p + (s.drop (i + 1)).countP p := by
    intro p
    conv_lhs => rw [← List.take_append_drop (i + 1) s]
    rw [List.countP_append]
  have hall : ∀ a ∈ s.take (i + 1),
      (fun x => decide (x ≤ s.getD i 0)) a = true := by
    intro a ha
    obtain ⟨j, hj, hja⟩ := List.mem_iff_getElem.mp ha
    have hj3 : j < min (i + 1) s.length := by simpa [List.length_take] using hj
    have hj2 : j < s.length := by omega
    have hji : j ≤ i := by omega
    rw [decide_eq_true_eq, List.getD_eq_getElem s 0 hi, ← hja,
      List.getElem_take]
    rcases Nat.lt_or_ge j i with hlt | hge
    · have := hs.rel_get_of_lt (a := ⟨j, hj2⟩) (b := ⟨i, hi⟩)
        (by simpa using hlt)
      simpa using this
    · have hj4 : j = i := by omega
      subst hj4
      exact le_refl _
  have h2 : (s.take (i + 1)).countP (fun x => decide (x ≤ s.getD i 0)) =
      (s.take (i + 1)).length := List.countP_eq_length.mpr hall
  have h3 : (s.take (i + 1)).length = i + 1 := by
    simp [List.length_take]
    omega
  have h4 := hsplit (fun x => decide (x ≤ s.getD i 0))
  omega

theorem sorted_countP_ge_getD (s : List Rat)
    (hs : List.Sorted (· ≤ ·) s) (i : Nat) (hi : i < s.length) :
    s.length - i ≤ s.countP (fun x => decide (s.getD i 0 ≤ x)) := by
  have hsplit : ∀ p : Rat → Bool, s.countP p =
      (s.take i).countP p + (s.drop i).countP p := by
    intro p
    conv_lhs => rw [← List.take_append_drop i s]
    rw [List.countP_append]
  have hall : ∀ a ∈ s.drop i,
      (fun x => decide (s.getD i 0 ≤ x)) a = true := by
    intro a ha
    obtain ⟨j, hj, hja⟩ := List.mem_iff_getElem.mp ha
    have hj3 : j < s.length - i := by simpa [List.length_drop] using hj
    have hij : i + j < s.length := by omega
    rw [decide_eq_true_eq, List.getD_eq_getElem s 0 hi, ← hja,
      List.getElem_drop]
    rcases Nat.eq_zero_or_pos j with hj0 | hjpos
    · subst hj0
      have : s[i] = s[i + 0] := by simp
      rw [← this]
    · have := hs.rel_get_of_lt (a := ⟨i, hi⟩) (b := ⟨i + j, hij⟩)
        (by simp; omega)
      simpa using this
  have h2 : (s.drop i).countP (fun x => decide (s.getD i 0 ≤ x)) =
      (s.drop i).length := List.countP_eq_length.mpr hall
  have h3 : (s.drop i).length = s.length - i := by simp
  have h4 := hsplit (fun x => decide (s.getD i 0 ≤ x))
  omega

theorem npMedian_isMedian (xs : List Rat) (h : xs ≠ []) :
    IsMedianOf (npMedian xs) xs := by
  have hperm := List.perm_insertionSort (· ≤ ·) xs
  have hsorted : List.Sorted (· ≤ ·) (xs.insertionSort (· ≤ ·)) :=
    List.sorted_insertionSort _ xs
  have hlen : (xs.insertionSort (· ≤ ·)).length = xs.length := hperm.length_eq
  have hpos : 0 < xs.length := List.length_pos.mpr h
  have hcount : ∀ p : Rat → Bool, xs.countP p = (xs.insertionSort (· ≤ ·)).countP p :=
    fun p => (hperm.countP_eq p).symm
  set s := xs.insertionSort (· ≤ ·) with hsdef
  simp only [npMedian, IsMedianOf, ← hsdef]
  by_cases hodd : xs.length % 2 = 1
  · rw [if_pos hodd]
    have hi : xs.length / 2 < s.length := by
      rw [hlen]; omega
    constructor
    · rw [hcount]
      have := sorted_countP_le_getD s hsorted (xs.length / 2) hi
      omega
    · rw [hcount]
      have := sorted_countP_ge_getD s hsorted (xs.length / 2) hi
      omega
  · rw [if_neg hodd]
    have hn2 : 2 ≤ xs.length := by omega
    have hi2 : xs.length / 2 < s.length := by rw [hlen]; omega
    have hi1 : xs.length / 2 - 1 < s.length := by rw [hlen]; omega
    have hab : s.getD (xs.length / 2 - 1) 0 ≤ s.getD (xs.length / 2) 0 := by
      rw [List.getD_eq_getElem s 0 hi1, List.getD_eq_getElem s 0 hi2]
      have := hsorted.rel_get_of_lt (a := ⟨xs.length / 2 - 1, hi1⟩)
        (b := ⟨xs.length / 2, hi2⟩) (by simp; omega)
      simpa using this
    have ham : s.getD (xs.length / 2 - 1) 0 ≤
        (s.getD (xs.length / 2 - 1) 0 + s.getD (xs.length / 2) 0) / 2 := by
      linarith
    have hmb : (s.getD (xs.length / 2 - 1) 0 + s.getD (xs.length / 2) 0) / 2 ≤
        s.getD (xs.length / 2) 0 := by
      linarith
    constructor
    · rw [hcount]
      have hmono : s.countP (fun x => decide (x ≤ s.getD (xs.length / 2 - 1) 0)) ≤
          s.countP (fun x =>
            decide (x ≤ (s.getD (xs.length / 2 - 1) 0 + s.getD (xs.length / 2) 0) / 2)) := by
        apply List.countP_mono_left
        intro x _ hx
        rw [decide_eq_true_eq] at hx ⊢
        exact le_trans hx ham
      have := sorted_countP_le_getD s hsorted (xs.length / 2 - 1) hi1
      omega
    · rw [hcount]
      have hmono : s.countP (fun x => decide (s.getD (xs.length / 2) 0 ≤ x)) ≤
          s.countP (fun x =>
            decide ((s.getD (xs.length / 2 - 1) 0 + s.getD (xs.length / 2) 0) / 2 ≤ x)) := by
        apply List.countP_mono_left
        intro x _ hx
        rw [decide_eq_true_eq] at hx ⊢
        exact le_trans hmb hx
      have := sorted_countP_ge_getD s hsorted (xs.length / 2) hi2
      omega

theorem medianAxis0_length (resp : List (List Rat)) :
    (medianAxis0 resp).length = (resp.headD []).length := by
  simp [medianAxis0]

theorem headD_length_of_all (resp : List (List Rat)) (n : Nat)
    (hne : resp ≠ []) (hlen : ∀ s ∈ resp, s.length = n) :
    (resp.headD []).length = n := by
  cases resp with
  | nil => exact absurd rfl hne
  | cons s r => exact hlen s (List.mem_cons_self s r)

theorem medianAxis0_getD (resp : List (List Rat)) (t : Nat)
    (ht : t < (resp.headD []).length) :
    (medianAxis0 resp).getD t 0 = npMedian (colAt resp t) := by
  unfold medianAxis0
  rw [List.getD_eq_getElem _ _ (by simpa using ht)]
  rw [List.getElem_map]
  rw [List.getElem_range]

theorem colAt_ne_nil (resp : List (List Rat)) (t : Nat) (hne : resp ≠ []) :
    colAt resp t ≠ [] := by
  intro hc
  exact hne (by simpa [colAt] using hc)

theorem chronosPredict_pointForecasts (st : ChronosForecaster) (rng : Int)
    (fh : Option (List Int)) (y : Option YData) :
    (chronosPredict st rng fh y).pointForecasts =
      ((chronosPredict st rng fh y).callTrace).map (fun e => medianAxis0 e.2) := by
  unfold chronosPredict
  cases hy : y.getD st.storedY with
  | flat ts vals =>
      cases hp : st.modelPipeline with
      | none => rfl
      | some pipe => exact runGroups_results_eq pipe st.config _ [vals] _
  | panel gs =>
      cases hf : frame2numpy gs with
      | error er => simp only [hf]; rfl
      | ok p =>
          simp only [hf]
          cases hp : st.modelPipeline with
          | none => rfl
          | some pipe => exact runGroups_results_eq pipe st.config _ p.1 _

theorem pointForecasts_getD (st : ChronosForecaster) (rng : Int)
    (fh : Option (List Int)) (y : Option YData) (i : Nat)
    (hi : i < (chronosPredict st rng fh y).callTrace.length) :
    (chronosPredict st rng fh y).pointForecasts.getD i [] =
      medianAxis0 ((chronosPredict st rng fh y).callTrace.getD i
        (defaultPipeCall, [])).2 := by
  rw [chronosPredict_pointForecasts]
  rw [List.getD_eq_getElem _ _ (by simpa using hi),
    List.getD_eq_getElem _ _ hi, List.getElem_map]

/-- Claim C6: for every pipeline call of a predict invocation, the point
forecast retained for that group is exactly the per-step reduction
`np.median(samples, axis=0)` of the trajectories the pipeline returned,
and at every step the retained value is a genuine median of that step's
sample values: at least half the samples lie at or below it and at least
half lie at or above it. -/
theorem chronos_point_forecast_is_median (st : ChronosForecaster)
    (rng : Int) (fh : Option (List Int)) (y : Option YData) (i n : Nat)
    (hi : i < (chronosPredict st rng fh y).callTrace.length)
    (hne : ((chronosPredict st rng fh y).callTrace.getD i
      (defaultPipeCall, [])).2 ≠ [])
    (hlen : ∀ s ∈ ((chronosPredict st rng fh y).callTrace.getD i
      (defaultPipeCall, [])).2, s.length = n) :
    (chronosPredict st rng fh y).pointForecasts.getD i [] =
      medianAxis0 ((chronosPredict st rng fh y).callTrace.getD i
        (defaultPipeCall, [])).2 ∧
    ((chronosPredict st rng fh y).pointForecasts.getD i []).length = n ∧
    ∀ t, t < n →
      IsMedianOf
        (((chronosPredict st rng fh y).pointForecasts.getD i []).getD t 0)
        (colAt ((chronosPredict st rng fh y).callTrace.getD i
          (defaultPipeCall, [])).2 t) := by
  have h1 := pointForecasts_getD st rng fh y i hi
  have hhead := headD_length_of_all _ n hne hlen
  refine ⟨h1, ?_, ?_⟩
  · rw [h1, medianAxis0_length, hhead]
  · intro t ht
    rw [h1, medianAxis0_getD _ _ (by rw [hhead]; exact ht)]
    exact npMedian_isMedian _ (colAt_ne_nil _ _ hne)

/-- Witness for C6 with a two-sample pipeline on a flat series: the
retained point forecast is the per-step median of the two returned
trajectories. -/
theorem chronos_point_forecast_is_median_witness :
    (chronosPredict stTwo 0 (some [1]) (some (YData.flat [0] [1]))).pointForecasts.getD 0 [] =
      medianAxis0 ((chronosPredict stTwo 0 (some [1]) (some (YData.flat [0] [1]))).callTrace.getD 0
        (defaultPipeCall, [])).2 ∧
    IsMedianOf
      (((chronosPredict stTwo 0 (some [1]) (some (YData.flat [0] [1]))).pointForecasts.getD 0 []).getD 0 0)
      (colAt ((chronosPredict stTwo 0 (some [1]) (some (YData.flat [0] [1]))).callTrace.getD 0
        (defaultPipeCall, [])).2 0) :=
  ⟨(chronos_point_forecast_is_median stTwo 0 (some [1]) (some (YData.flat [0] [1]))
      0 1 (by decide) (by decide) (by decide)).1,
   ((chronos_point_forecast_is_median stTwo 0 (some [1]) (some (YData.flat [0] [1]))
      0 1 (by decide) (by decide) (by decide)).2.2) 0 (by decide)⟩

/-! ### Index and filter lemmas for the output table -/

theorem map_filter_comp {α β : Type} (g : α → β) (q : β → Bool)
    (l : List α) :
    (l.filter (fun x => q (g x))).map g = (l.map g).filter q := by
  induction l with
  | nil => rfl
  | cons a t ih =>
      simp only [List.filter_cons, List.map_cons]
      by_cases hq : q (g a)
      · simp [hq, ih]
      · simp [hq, ih]

theorem flatMap_singleton_map {α β : Type} (l : List α) (f : α → β) :
    l.flatMap (fun x => [f x]) = l.map f := by
  induction l with
  | nil => rfl
  | cons a t ih => simp [List.flatMap_cons, ih]

theorem range_map_getD (l : List Rat) :
    (List.range l.length).map (fun t => l.getD t 0) = l := by
  apply List.ext_getElem
  · simp
  · intro i h1 h2
    rw [List.getElem_map, List.getElem_range, List.getD_eq_getElem l 0 h2]

theorem stackFlatten_single (med : List Rat) : stackFlatten [med] = med := by
  unfold stackFlatten
  exact (flatMap_singleton_map _ _).trans (range_map_getD med)

theorem absTimes_length (c : Int) (h : Nat) : (absTimes c h).length = h := by
  unfold absTimes
  rw [List.length_map, List.length_range]

theorem absTimes_sorted (c : Int) (h : Nat) :
    List.Sorted (· < ·) (absTimes c h) := by
  unfold absTimes
  refine List.Pairwise.map (fun i => c + (↑i + 1)) ?_
    (List.pairwise_lt_range h)
  intro a b hab
  simp only []
  omega

theorem mem_absTimes_of (c : Int) (h : Nat) (o : Int) (h1 : 1 ≤ o)
    (h2 : o ≤ (h : Int)) : c + o ∈ absTimes c h := by
  unfold absTimes
  rw [List.mem_map]
  refine ⟨(o - 1).toNat, ?_, ?_⟩
  · rw [List.mem_range]; omega
  · omega

theorem foldl_max_facts : ∀ (xs : List Int) (b : Int),
    b ≤ xs.foldl max b ∧ ∀ o ∈ xs, o ≤ xs.foldl max b := by
  intro xs
  induction xs with
  | nil => intro b; exact ⟨le_refl b, by simp⟩
  | cons x t ih =>
      intro b
      constructor
      · exact le_trans (le_max_left b x) (ih (max b x)).1
      · intro o ho
        rcases List.mem_cons.mp ho with rfl | hot
        · exact le_trans (le_max_right b o) (ih (max b o)).1
        · exact (ih (max b x)).2 o hot

theorem le_listMax (f : List Int) : ∀ o ∈ f, o ≤ listMax f := by
  cases f with
  | nil => simp
  | cons x t =>
      intro o ho
      rcases List.mem_cons.mp ho with rfl | hot
      · exact (foldl_max_facts t o).1
      · exact (foldl_max_facts t x).2 o hot

theorem filter_of_sorted_sub (L F : List Int)
    (hL : List.Sorted (· < ·) L) (hF : List.Sorted (· < ·) F)
    (hsub : ∀ x ∈ F, x ∈ L) :
    L.filter (fun x => decide (x ∈ F)) = F := by
  have hLnd : L.Nodup := hL.nodup
  have hFnd : F.Nodup := hF.nodup
  have hperm : (L.filter (fun x => decide (x ∈ F))).Perm F := by
    rw [List.perm_iff_count]
    intro a
    by_cases ha : a ∈ F
    · rw [List.count_filter (by simpa using ha)]
      rw [List.count_eq_one_of_mem hLnd (hsub a ha),
        List.count_eq_one_of_mem hFnd ha]
    · have h1 : a ∉ L.filter (fun x => decide (x ∈ F)) := by
        intro hmem
        exact ha (by simpa using (List.mem_filter.mp hmem).2)
      rw [List.count_eq_zero_of_not_mem h1, List.count_eq_zero_of_not_mem ha]
  exact List.eq_of_perm_of_sorted hperm ((hL.filter _).imp le_of_lt)
    (hF.imp le_of_lt)

/-- Claim C3: for a flat series and a horizon of H future offsets (sorted,
positive), predict returns a successful table of exactly H rows whose
(time) index is precisely the absolutized requested horizon in ascending
order, with a single value per row and no group key. The pipeline is
assumed well-behaved: nonempty sample sets of trajectories of the
requested length. -/
theorem chronos_flat_predict_row_shape (st : ChronosForecaster) (rng : Int)
    (pipe : ChronosPipeline) (f : List Int) (ts : List Int) (vals : List Rat)
    (hpm : st.modelPipeline = some pipe)
    (hfne : f ≠ []) (hsort : List.Sorted (· < ·) f)
    (hpos : ∀ o ∈ f, 1 ≤ o)
    (hrne : ∀ (r : Int) (c : PipeCall), (pipe.run r c).1 ≠ [])
    (hrlen : ∀ (r : Int) (c : PipeCall), ∀ s ∈ (pipe.run r c).1,
      s.length = c.predLen.toNat) :
    (chronosPredict st rng (some f) (some (YData.flat ts vals))).table =
      Except.ok
        (tableRows (chronosPredict st rng (some f) (some (YData.flat ts vals))).table) ∧
    (tableRows (chronosPredict st rng (some f) (some (YData.flat ts vals))).table).map
        (fun r => r.2.1) = f.map (fun o => st.cutoff + o) ∧
    (tableRows (chronosPredict st rng (some f) (some (YData.flat ts vals))).table).length =
      f.length ∧
    List.Sorted (· < ·)
      ((tableRows (chronosPredict st rng (some f) (some (YData.flat ts vals))).table).map
        (fun r => r.2.1)) ∧
    (tableRows (chronosPredict st rng (some f) (some (YData.flat ts vals))).table).map
        (fun r => r.1) = List.replicate f.length (none : Option Int) := by
  have htab : (chronosPredict st rng (some f) (some (YData.flat ts vals))).table =
      Except.ok
        (((((absTimes st.cutoff
              (medianAxis0 (pipe.run st.seedUsed
                (mkCall pipe.contextLength st.config (predictionLengthOf (some f)) vals)).1).length).map
            (fun t => ((none : Option Int), t))).zip
            (stackFlatten [medianAxis0 (pipe.run st.seedUsed
              (mkCall pipe.contextLength st.config (predictionLengthOf (some f)) vals)).1])).map
          (fun p => (p.1.1, p.1.2, p.2))).filter
          (fun r => decide (r.2.1 ∈ f.map (fun o => st.cutoff + o)))) := by
    simp only [chronosPredict, hpm]
    rfl
  set call := mkCall pipe.contextLength st.config (predictionLengthOf (some f)) vals with hcll
  set resp := (pipe.run st.seedUsed call).1 with hrsp
  set med := medianAxis0 resp with hmed
  set F := f.map (fun o => st.cutoff + o) with hF
  set L := absTimes st.cutoff med.length with hL
  -- trajectory length facts
  have hmlen : med.length = (listMax f).toNat := by
    rw [hmed, medianAxis0_length]
    exact headD_length_of_all resp _ (hrne _ _)
      (fun s hs => hrlen st.seedUsed call s hs)
  have hMpos : 1 ≤ listMax f := by
    obtain ⟨o, ho⟩ := List.exists_mem_of_ne_nil f hfne
    exact le_trans (hpos o ho) (le_listMax f o ho)
  -- sortedness and subset facts for the requested horizon times
  have hFsort : List.Sorted (· < ·) F :=
    List.Pairwise.map _ (fun a b hab => by omega) hsort
  have hLsort : List.Sorted (· < ·) L := absTimes_sorted _ _
  have hsub : ∀ x ∈ F, x ∈ L := by
    intro x hx
    obtain ⟨o, ho, rfl⟩ := List.mem_map.mp hx
    apply mem_absTimes_of
    · exact hpos o ho
    · rw [hmlen]
      have h1 := le_listMax f o ho
      omega
  have hfilterL : L.filter (fun x => decide (x ∈ F)) = F :=
    filter_of_sorted_sub L F hLsort hFsort hsub
  -- the produced rows
  have hrows : tableRows (chronosPredict st rng (some f) (some (YData.flat ts vals))).table =
      ((L.zip med).filter (fun p => decide (p.1 ∈ F))).map
        (fun p => ((none : Option Int), p.1, p.2)) := by
    rw [htab]
    show (((L.map (fun t => ((none : Option Int), t))).zip
        (stackFlatten [med])).map (fun p => (p.1.1, p.1.2, p.2))).filter
        (fun r => decide (r.2.1 ∈ F)) = _
    rw [stackFlatten_single, List.zip_map_left, List.map_map]
    rw [show ((fun p : (Option Int × Int) × Rat => (p.1.1, p.1.2, p.2)) ∘
        Prod.map (fun t : Int => ((none : Option Int), t)) id) =
        (fun p : Int × Rat => ((none : Option Int), p.1, p.2)) from rfl]
    rw [← map_filter_comp (fun p : Int × Rat => ((none : Option Int), p.1, p.2))
      (fun r : Option Int × Int × Rat => decide (r.2.1 ∈ F)) (L.zip med)]
  have htime : (tableRows (chronosPredict st rng (some f) (some (YData.flat ts vals))).table).map
      (fun r => r.2.1) = F := by
    rw [hrows, List.map_map]
    rw [show ((fun r : Option Int × Int × Rat => r.2.1) ∘
        (fun p : Int × Rat => ((none : Option Int), p.1, p.2))) =
        (Prod.fst : Int × Rat → Int) from rfl]
    rw [map_filter_comp (Prod.fst : Int × Rat → Int)
      (fun t => decide (t ∈ F)) (L.zip med)]
    rw [List.map_fst_zip L med (le_of_eq (absTimes_length _ _))]
    exact hfilterL
  have hlen2 : (tableRows (chronosPredict st rng (some f) (some (YData.flat ts vals))).table).length =
      f.length := by
    have h9 := congrArg List.length htime
    rw [hF] at h9
    simpa using h9
  refine ⟨?_, htime, hlen2, ?_, ?_⟩
  · rw [htab]
    rfl
  · rw [htime]
    exact hFsort
  · rw [hrows, List.map_map]
    rw [show ((fun r : Option Int × Int × Rat => r.1) ∘
        (fun p : Int × Rat => ((none : Option Int), p.1, p.2))) =
        (Function.const (Int × Rat) (none : Option Int)) from rfl]
    rw [List.map_const]
    congr 1
    have h10 := congrArg List.length hrows
    rw [hlen2] at h10
    simpa using h10.symm

/-- Witness for C3: a concrete flat two-point series with horizon
`[1, 2]` against the two-sample pipeline yields a successful two-row
table indexed by the two absolutized horizon points. -/
theorem chronos_flat_predict_row_shape_witness :
    (chronosPredict stTwo 0 (some [1, 2]) (some (YData.flat [9, 10] [3, 4]))).table =
      Except.ok
        (tableRows (chronosPredict stTwo 0 (some [1, 2]) (some (YData.flat [9, 10] [3, 4]))).table) ∧
    (tableRows (chronosPredict stTwo 0 (some [1, 2]) (some (YData.flat [9, 10] [3, 4]))).table).map
        (fun r => r.2.1) = ([1, 2] : List Int).map (fun o => stTwo.cutoff + o) ∧
    (tableRows (chronosPredict stTwo 0 (some [1, 2]) (some (YData.flat [9, 10] [3, 4]))).table).length =
      ([1, 2] : List Int).length :=
  ⟨(chronos_flat_predict_row_shape stTwo 0 pipeTwo [1, 2] [9, 10] [3, 4] rfl
      (by decide) (by decide) (by decide)
      (by intro r c; simp [pipeTwo])
      (by
        intro r c s hs
        simp only [pipeTwo, List.mem_cons, List.not_mem_nil, or_false] at hs
        rcases hs with rfl | rfl <;> simp)).1,
   (chronos_flat_predict_row_shape stTwo 0 pipeTwo [1, 2] [9, 10] [3, 4] rfl
      (by decide) (by decide) (by decide)
      (by intro r c; simp [pipeTwo])
      (by
        intro r c s hs
        simp only [pipeTwo, List.mem_cons, List.not_mem_nil, or_false] at hs
        rcases hs with rfl | rfl <;> simp)).2.1,
   (chronos_flat_predict_row_shape stTwo 0 pipeTwo [1, 2] [9, 10] [3, 4] rfl
      (by decide) (by decide) (by decide)
      (by intro r c; simp [pipeTwo])
      (by
        intro r c s hs
        simp only [pipeTwo, List.mem_cons, List.not_mem_nil, or_false] at hs
        rcases hs with rfl | rfl <;> simp)).2.2.1⟩
